import Mathlib

/-!
Verification development for the Click-Cartel listing-ingestion core
(`click-cartel-discord-bot`).  The definitions below are a shallow embedding of
the Python source:

* `src/services/db.py` — the SQLite-backed listing store (`DB.upsert_listings`,
  `DB.get_pending_reviews`, `DB.mark_review_rejected`, `DB.mark_review_posted`,
  `DB.clear_listings`, `DB.update_listing_fields`, rules and saved-search
  persistence),
* `src/scrapers/base.py` — the `Listing` record and `run_scrapers`,
* `src/services/scraper_manager.py` — `ScraperManager.run_all`,
* `src/bot.py` — `ClickCartelBot.perform_scrape`,
* `src/cogs/admin.py` — `_extract_amount_val`, `_row_to_display` and the
  rule-matching loop of `AdminCog._auto_post_rules`,
* `src/cogs/saved_searches.py` — `_extract_amount_val` (identical copy) and
  `SavedSearchCog._match`.

SQLite rows are modelled as Lean structures, tables as lists in insertion
order (AUTOINCREMENT ids are carried explicitly; the sequence survives
`DELETE`, matching the `AUTOINCREMENT` keyword), `datetime('now')` as an
explicit `Nat` clock argument, SQL `NULL`able columns as `Option`, and the
Python duck-typed `_get_val` access as a small `PyObj` sum type.
Python `str.lower()` is modelled on its ASCII fragment (all data in the
claims is ASCII).
-/

/-! ### Python string primitives -/

/-- The whitespace class of Python `str.strip()` / regex `\s` (ASCII part). -/
def pyWs (c : Char) : Bool :=
  c = ' ' || c = '\t' || c = '\n' || c = '\r' || c = '\x0b' || c = '\x0c'

/-- Python `str.strip()` (no argument): drop leading and trailing whitespace. -/
def pyStrip (s : String) : String :=
  String.mk (((s.toList.dropWhile pyWs).reverse.dropWhile pyWs).reverse)

/-- Python `str.lower()` on its ASCII fragment. -/
def pyLowerChar (c : Char) : Char :=
  if 65 ≤ c.toNat ∧ c.toNat ≤ 90 then Char.ofNat (c.toNat + 32) else c

def pyLower (s : String) : String := String.mk (s.toList.map pyLowerChar)

/-- Whether `needle` occurs at the start of `hay` (character lists). -/
def startsWithChars : List Char → List Char → Bool
  | [], _ => true
  | _ :: _, [] => false
  | a :: as, b :: bs => a = b && startsWithChars as bs

/-- Python substring test `needle in hay`. -/
def containsSub (hay needle : String) : Bool :=
  let h := hay.toList
  (List.range (h.length + 1)).any (fun i => startsWithChars needle.toList (h.drop i))

/-- Python `str.split()` with no separator: whitespace-delimited tokens. -/
def pySplitGo : List Char → List Char → List String
  | [], cur => if cur.isEmpty then [] else [String.mk cur.reverse]
  | c :: t, cur =>
    if pyWs c then
      if cur.isEmpty then pySplitGo t [] else String.mk cur.reverse :: pySplitGo t []
    else pySplitGo t (c :: cur)

def pySplit (s : String) : List String := pySplitGo s.toList []

/-! ### `_extract_amount_val` (admin.py 79-88, saved_searches.py 49-58)

```python
def _extract_amount_val(payout: str) -> Optional[int]:
    if not payout:
        return None
    nums = []
    for m in re.findall(r"\$?\s*([\d,]+)(?:\.\d{2})?", payout):
        try:
            nums.append(int(m.replace(",", "")))
        except Exception:
            pass
    return max(nums) if nums else None
```

The regex is simple enough to embed directly: an optional dollar sign, then
whitespace, then a nonempty run of digits/commas (the captured group), then an
optional `.dd` suffix.  `re.findall` scans left to right, restarting after the
end of each match; positions where no match starts are skipped one character at
a time.  No backtracking is observable for this pattern because `$`, whitespace
and `[\d,]` are pairwise disjoint character classes. -/

def isDigitOrComma (c : Char) : Bool := c.isDigit || c = ','

/-- Attempt to match `\$?\s*([\d,]+)(?:\.\d{2})?` at the head of `cs`;
on success return the captured group and the remainder after the match. -/
def matchAmountAt (cs : List Char) : Option (List Char × List Char) :=
  let cs1 := match cs with | '$' :: t => t | _ => cs
  let cs2 := cs1.dropWhile pyWs
  let grp := cs2.takeWhile isDigitOrComma
  if grp.isEmpty then none
  else
    let rest := cs2.drop grp.length
    let rest2 := match rest with
      | '.' :: d1 :: d2 :: t => if d1.isDigit && d2.isDigit then t else rest
      | _ => rest
    some (grp, rest2)

/-- Models `re.findall` scan.  Structural recursion on a fuel equal to the remaining
length: every successful match consumes at least one character (its group is
nonempty), so `cs.length` fuel suffices. -/
def findallAmountGo : Nat → List Char → List (List Char)
  | 0, _ => []
  | _ + 1, [] => []
  | fuel + 1, c :: t =>
    match matchAmountAt (c :: t) with
    | some (g, rest) => g :: findallAmountGo fuel rest
    | none => findallAmountGo fuel t

def findallAmount (cs : List Char) : List (List Char) := findallAmountGo cs.length cs

/-- Models `int(m.replace(",", ""))` guarded by `try`: strip commas, then parse the
digit run; an all-comma group raises and is skipped (`none`). -/
def parseAmountGroup (g : List Char) : Option Int :=
  let ds := g.filter (fun c => c ≠ ',')
  if ds.isEmpty then none
  else some (Int.ofNat (ds.foldl (fun a c => 10 * a + (c.toNat - 48)) 0))

/-- Python `max` on a list (`none` on an empty list, mirroring the
`if nums else None` guard). -/
def pyMax : List Int → Option Int
  | [] => none
  | a :: t => some (t.foldl max a)

/-- Models `_extract_amount_val` (identical in `admin.py` and `saved_searches.py`). -/
def extractAmountVal (payout : String) : Option Int :=
  if payout.isEmpty then none
  else pyMax ((findallAmount payout.toList).filterMap parseAmountGroup)

/-- The parseable numeric candidates of a payout string (the `nums` list). -/
def amountCandidates (payout : String) : List Int :=
  (findallAmount payout.toList).filterMap parseAmountGroup

/-! ### Data model: scraped records and the SQLite store (db.py) -/

/-- A scraped listing record as consumed by `DB.upsert_listings`: `_get_val`
reads each field from a dict-like or attribute-like object, returning `None`
for a missing field, so every field is optional here. -/
structure Item where
  site : Option String := none
  title : Option String := none
  payout : Option String := none
  date_posted : Option String := none
  location : Option String := none
  method : Option String := none
  link : Option String := none
  description : Option String := none
  image_url : Option String := none
deriving DecidableEq, Repr

/-- A dynamically-typed Python value reaching `upsert_listings`.  Besides
proper listing records, `perform_scrape` can (and, due to the `run_all` bug,
does) pass a dict, whose iteration yields its string keys; `getattr` on a
string returns `None` for every listing field, which `asItem` captures. -/
inductive PyObj where
  | item (it : Item)
  | str (s : String)
deriving DecidableEq, Repr

/-- Field access through `_get_val` (db.py 83-89): a bare string has none of
the listing attributes, so it behaves as an all-`None` record. -/
def asItem : PyObj → Item
  | .item it => it
  | .str _ => {}

/-- The `Listing` dataclass of `scrapers/base.py` (the derived sha256 id is
omitted: no claim consults it).  `site`, `title`, `link` are mandatory,
the rest default to the empty string. -/
structure Listing where
  site : String
  title : String
  link : String
  payout : String := ""
  date_posted : String := ""
  location : String := ""
  method : String := ""
  description : String := ""
  image_url : String := ""
deriving DecidableEq, Repr

/-- A `Listing` object seen through `_get_val`: every attribute is present. -/
def Listing.toItem (l : Listing) : Item :=
  { site := some l.site, title := some l.title, link := some l.link,
    payout := some l.payout, date_posted := some l.date_posted,
    location := some l.location, method := some l.method,
    description := some l.description, image_url := some l.image_url }

/-- One row of the `listings` table (schema, db.py 10-24).  `site` and `link`
are `NOT NULL`; the other text columns are nullable.  Timestamps are clock
ticks standing for `datetime('now')`. -/
structure Row where
  id : Nat
  site : String
  title : Option String := none
  payout : Option String := none
  date_posted : Option String := none
  location : Option String := none
  method : Option String := none
  link : String
  description : Option String := none
  image_url : Option String := none
  created_at : Nat := 0
  updated_at : Nat := 0
deriving DecidableEq, Repr

/-- One row of the `posts` table (`UNIQUE(listing_id)`; the surrogate id
plays no role in any query and is omitted). -/
structure Post where
  listing_id : Nat
  channel_id : Nat
  message_id : Nat
deriving DecidableEq, Repr

/-- One row of the `rejects` table (`UNIQUE(site, link)`). -/
structure Reject where
  id : Nat
  listing_id : Option Nat
  site : String
  link : String
deriving DecidableEq, Repr

/-- The persistent store: the tables touched by the claims, in insertion
order, together with the `AUTOINCREMENT` sequences for `listings` and
`rejects` (which survive `DELETE`, per the `AUTOINCREMENT` keyword). -/
structure Store where
  listings : List Row := []
  posts : List Post := []
  rejects : List Reject := []
  modCards : List Nat := []
  nextId : Nat := 1
  nextRejectId : Nat := 1
deriving DecidableEq, Repr

def emptyStore : Store := {}

/-! ### `DB.upsert_listings` (db.py 120-172) -/

/-- Models `(_get_val(it, "site") or "").strip()`. -/
def itemSite (o : PyObj) : String := pyStrip ((asItem o).site.getD "")

/-- Models `(_get_val(it, "link") or "").strip()`. -/
def itemLink (o : PyObj) : String := pyStrip ((asItem o).link.getD "")

/-- Models `if not site or not link: continue` — a record is processed only when
both keys are nonempty after stripping. -/
def validObj (o : PyObj) : Bool := !(itemSite o).isEmpty && !(itemLink o).isEmpty

/-- Models `SELECT id FROM listings WHERE site=? AND link=?` returned a row. -/
def hasKey (st : Store) (site link : String) : Bool :=
  st.listings.any (fun r => decide (r.site = site ∧ r.link = link))

/-- The `UPDATE listings SET ... WHERE site=? AND link=?` row transformer:
refresh the mutable fields and bump `updated_at` on every matching row. -/
def applyUpdate (now : Nat) (it : Item) (site link : String) (r : Row) : Row :=
  if r.site = site ∧ r.link = link then
    { r with title := it.title, payout := it.payout,
             date_posted := it.date_posted, location := it.location,
             method := it.method, link := link, description := it.description,
             image_url := it.image_url, updated_at := now }
  else r

/-- The freshly `INSERT`ed row: state columns default, timestamps set to
`datetime('now')`, id from the autoincrement sequence. -/
def insertedRow (st : Store) (now : Nat) (it : Item) (site link : String) : Row :=
  { id := st.nextId, site := site, title := it.title, payout := it.payout,
    date_posted := it.date_posted, location := it.location, method := it.method,
    link := link, description := it.description, image_url := it.image_url,
    created_at := now, updated_at := now }

/-- One iteration of the `for it in listings` loop of `upsert_listings`:
returns the updated store and this record's contribution to `new_count`. -/
def upsertOne (st : Store) (now : Nat) (o : PyObj) : Store × Nat :=
  let site := itemSite o
  let link := itemLink o
  if site.isEmpty || link.isEmpty then (st, 0)
  else if hasKey st site link then
    ({ st with listings := st.listings.map (applyUpdate now (asItem o) site link) }, 0)
  else
    ({ st with listings := st.listings ++ [insertedRow st now (asItem o) site link],
               nextId := st.nextId + 1 }, 1)

/-- The whole loop, accumulating `new_count`. -/
def upsertAll (st : Store) (now : Nat) (objs : List PyObj) : Store × Nat :=
  objs.foldl (fun acc o => let r := upsertOne acc.1 now o; (r.1, acc.2 + r.2)) (st, 0)

/-- Models `LEFT JOIN posts p ON p.listing_id = l.id` found a post. -/
def hasPost (st : Store) (r : Row) : Bool :=
  st.posts.any (fun p => decide (p.listing_id = r.id))

/-- Models `LEFT JOIN rejects r ON r.listing_id = l.id OR (r.site = l.site AND
r.link = l.link)` found a reject. -/
def isRejected (st : Store) (r : Row) : Bool :=
  st.rejects.any (fun rej =>
    decide (rej.listing_id = some r.id ∨ (rej.site = r.site ∧ rej.link = r.link)))

/-- Models `WHERE p.listing_id IS NULL AND r.id IS NULL` — the pending predicate. -/
def isPending (st : Store) (r : Row) : Bool := !hasPost st r && !isRejected st r

/-- The trailing pending count of `upsert_listings` (db.py 164-171). -/
def pendingCount (st : Store) : Nat := (st.listings.filter (isPending st)).length

/-- Models `DB.upsert_listings`: run the loop, then report
`(new_rows_inserted, pending_count_after)`. -/
def upsert_listings (st : Store) (now : Nat) (objs : List PyObj) : Store × Nat × Nat :=
  let r := upsertAll st now objs
  (r.1, r.2, pendingCount r.1)

/-! ### Review-queue operations (db.py 175-256) -/

/-- Insertion sort by descending id, modelling `ORDER BY l.id DESC`. -/
def insertByIdDesc (r : Row) : List Row → List Row
  | [] => [r]
  | x :: t => if x.id ≤ r.id then r :: x :: t else x :: insertByIdDesc r t

def sortByIdDesc : List Row → List Row
  | [] => []
  | x :: t => insertByIdDesc x (sortByIdDesc t)

/-- Models `DB.get_pending_reviews`: listings with no post and no reject,
newest (highest id) first. -/
def get_pending_reviews (st : Store) : List Row :=
  sortByIdDesc (st.listings.filter (isPending st))

/-- Models `DB.mark_review_posted`: `INSERT OR REPLACE INTO posts` keyed by the
`UNIQUE(listing_id)` constraint. -/
def mark_review_posted (st : Store) (listing_id message_id channel_id : Nat) : Store :=
  { st with posts := st.posts.filter (fun p => p.listing_id ≠ listing_id) ++
      [{ listing_id := listing_id, channel_id := channel_id, message_id := message_id }] }

/-- Models `DB.mark_review_rejected`: look the listing up by id; if present,
`INSERT OR IGNORE INTO rejects` (ignored when `(site, link)` already has a
reject row, per `UNIQUE(site, link)`). -/
def mark_review_rejected (st : Store) (listing_id : Nat) : Store :=
  match st.listings.find? (fun r => decide (r.id = listing_id)) with
  | none => st
  | some row =>
    if st.rejects.any (fun rej => decide (rej.site = row.site ∧ rej.link = row.link)) then st
    else { st with
      rejects := st.rejects ++
        [{ id := st.nextRejectId, listing_id := some listing_id,
           site := row.site, link := row.link }],
      nextRejectId := st.nextRejectId + 1 }

/-- Models `DB.clear_listings`: `DELETE FROM posts / rejects / moderation_cards /
listings`.  The autoincrement sequences persist. -/
def clear_listings (st : Store) : Store :=
  { st with listings := [], posts := [], rejects := [], modCards := [] }

/-- The keyword arguments accepted by `DB.update_listing_fields`; `none`
means the field was not passed (fields outside the allow-list are dropped
before this point and cannot be represented). -/
structure FieldPatch where
  title : Option (Option String) := none
  payout : Option (Option String) := none
  location : Option (Option String) := none
  method : Option (Option String) := none
  description : Option (Option String) := none
  image_url : Option (Option String) := none
  date_posted : Option (Option String) := none
deriving DecidableEq, Repr

def FieldPatch.isEmptyPatch (p : FieldPatch) : Bool :=
  p.title.isNone && p.payout.isNone && p.location.isNone && p.method.isNone &&
  p.description.isNone && p.image_url.isNone && p.date_posted.isNone

/-- Models `DB.update_listing_fields`: with no allowed field it returns early;
otherwise it sets the given fields and bumps `updated_at` on the row with the
given id.  `site` and `link` are not in the allow-list. -/
def update_listing_fields (st : Store) (now listing_id : Nat) (p : FieldPatch) : Store :=
  if p.isEmptyPatch then st
  else { st with listings := st.listings.map (fun r =>
    if r.id = listing_id then
      { r with title := p.title.getD r.title, payout := p.payout.getD r.payout,
               location := p.location.getD r.location, method := p.method.getD r.method,
               description := p.description.getD r.description,
               image_url := p.image_url.getD r.image_url,
               date_posted := p.date_posted.getD r.date_posted, updated_at := now }
    else r) }

/-- Models `DB.mark_moderation_announced`: `INSERT OR REPLACE INTO moderation_cards`
(primary key `listing_id`; only the key matters to the claims). -/
def mark_moderation_announced (st : Store) (listing_id : Nat) : Store :=
  { st with modCards := st.modCards.filter (fun i => i ≠ listing_id) ++ [listing_id] }

/-- Models `DB.clear_moderation_card`. -/
def clear_moderation_card (st : Store) (listing_id : Nat) : Store :=
  { st with modCards := st.modCards.filter (fun i => i ≠ listing_id) }

/-! ### Collector and ingestion pipeline (base.py 89-100, scraper_manager.py
46-63, bot.py 146-155) -/

/-- Models `run_scrapers` (base.py 89-100): gather every scraper's result with
`return_exceptions=True`; a failed scraper is logged and skipped, a successful
one has its listings appended (`results.extend(res or [])`). -/
def run_scrapers (scraped : List (Except String (List Listing))) : List Listing :=
  scraped.foldl (fun results res =>
    match res with
    | .error _ => results
    | .ok ls => results ++ ls) []

/-- Models `ScraperManager.run_all` (scraper_manager.py 46-63): it computes
`results = await run_scrapers(self.scrapers)` (falling back to `[]` on an
exception), runs no Playwright scrapers, and then returns the literal dict
`{"new": 0, "total": 0}` — discarding `results`.  The returned dict is
modelled by its iteration behaviour: `len` is 2 and iterating yields the two
string keys, in insertion order. -/
def run_all (scraped : List (Except String (List Listing))) : List PyObj :=
  let _results := run_scrapers scraped
  [.str "new", .str "total"]

/-- The summary dict built by `ClickCartelBot.perform_scrape`. -/
structure ScrapeSummary where
  total_found : Nat
  new : Nat
  queued : Nat
deriving DecidableEq, Repr

/-- Models `ClickCartelBot.perform_scrape` (bot.py 146-155), with scraper manager and
database present: `listings = await self.scraper_manager.run_all()`, then
`upserted, pending = await self.db.upsert_listings(listings)`, returning
`{"total_found": len(listings), "new": upserted, "queued": pending}`. -/
def perform_scrape (st : Store) (now : Nat)
    (scraped : List (Except String (List Listing))) : Store × ScrapeSummary :=
  let listings := run_all scraped
  let r := upsert_listings st now listings
  (r.1, { total_found := listings.length, new := r.2.1, queued := r.2.2 })

/-! ### Display rows and the rule engine (admin.py 45-58, 364-425,
db.py 308-314) -/

/-- Python `x or default` on an optional string: `None` and `""` are falsy. -/
def pyOrStr (o : Option String) (dflt : String) : String :=
  match o with
  | none => dflt
  | some s => if s.isEmpty then dflt else s

/-- Models `_row_to_display` (admin.py 45-58): project a store row to plain strings,
defaulting the title to "(untitled)" and everything else to "". -/
structure DisplayIt where
  id : Nat
  title : String
  site : String
  payout : String
  date_posted : String
  location : String
  method : String
  link : String
  description : String
  image_url : String
deriving DecidableEq, Repr

def rowToDisplay (r : Row) : DisplayIt :=
  { id := r.id, title := pyOrStr r.title "(untitled)", site := r.site,
    payout := pyOrStr r.payout "", date_posted := pyOrStr r.date_posted "",
    location := pyOrStr r.location "", method := pyOrStr r.method "",
    link := r.link, description := pyOrStr r.description "",
    image_url := pyOrStr r.image_url "" }

/-- One row of the `auto_rules` table (schema, db.py 61-72). -/
structure Rule where
  id : Nat
  name : String := ""
  min_amount : Option Int := none
  require_remote : Bool := false
  site_contains : Option String := none
  method_contains : Option String := none
  location_contains : Option String := none
  channel_id : Option Nat := none
  enabled : Bool := true
deriving DecidableEq, Repr

/-- Models `DB.list_rules(enabled_only=True)` (db.py 308-314): the enabled rules in
ascending id order.  The table is kept in insertion order, which coincides
with id order for any table reachable through `add_rule`. -/
def listRulesEnabled (table : List Rule) : List Rule := table.filter (fun d => d.enabled)

/-- The remote vocabulary test of `_auto_post_rules` (admin.py 382-383):
`any(t in loc for t in ("remote", "virtual", "online", "nationwide",
"national"))` against the lower-cased location. -/
def remoteVocabIn (loc : String) : Bool :=
  ["remote", "virtual", "online", "nationwide", "national"].any
    (fun t => containsSub loc t)

/-- The inner `contains` helper of `_auto_post_rules` (admin.py 384-386):
an unset or empty filter passes, otherwise a case-insensitive substring
test. -/
def ruleContains (field : String) (val : Option String) : Bool :=
  match val with
  | none => true
  | some v => if v.isEmpty then true else containsSub (pyLower field) (pyLower v)

/-- The minimum-payout filter of the rule loop (admin.py 380):
`if d["min_amount"] is not None and (amt is None or amt < d["min_amount"]):
continue` — the listing passes when no minimum is configured, or when the
extracted amount exists and is at least the minimum. -/
def ruleMinAmountPass (m : Option Int) (payout : String) : Bool :=
  match m, extractAmountVal payout with
  | none, _ => true
  | some _, none => false
  | some m, some a => decide (m ≤ a)

/-- The filter gauntlet of the rule loop in `_auto_post_rules`
(admin.py 378-389): `continue` on the first failed filter, so a rule
"matches" when every configured filter passes. -/
def ruleStep (it : DisplayIt) (d : Rule) : Bool :=
  ruleMinAmountPass d.min_amount it.payout &&
  (if d.require_remote then remoteVocabIn (pyLower it.location) else true) &&
  ruleContains it.site d.site_contains &&
  ruleContains it.method d.method_contains &&
  ruleContains it.location d.location_contains

/-- The `for rule in rules` loop: the first rule whose filters all pass ends
the loop (`break`), so it alone decides the routing. -/
def routeRule (it : DisplayIt) : List Rule → Option Rule
  | [] => none
  | d :: rest => if ruleStep it d then some d else routeRule it rest

/-- Routing against the rule table as `_auto_post_rules` sees it. -/
def autoRouteFor (table : List Rule) (it : DisplayIt) : Option Rule :=
  routeRule it (listRulesEnabled table)

/-- Models `chan_id = int(d.get("channel_id") or 0) or (default_cid or 0)`
(admin.py 390): the destination channel for a matched rule. -/
def ruleChanId (defaultCid : Option Nat) (d : Rule) : Nat :=
  let c := d.channel_id.getD 0
  if c ≠ 0 then c else defaultCid.getD 0

/-! ### Saved-search matcher (saved_searches.py 81-111) -/

/-- The parameter record `SavedSearchCog._match` receives (a `saved_searches`
row turned into a dict; `remote_only` is stored as 0/1 and read for
truthiness). -/
structure SearchParams where
  q : Option String := none
  min_amount : Option Int := none
  location : Option String := none
  method : Option String := none
  site : Option String := none
  remote_only : Bool := false
deriving DecidableEq, Repr

/-- The keyword terms: `[t.strip().lower() for t in str(q).split() if t.strip()]`. -/
def searchTerms (q : String) : List String :=
  ((pySplit q).map (fun t => pyLower (pyStrip t))).filter (fun t => !(pyStrip t).isEmpty)

/-- The minimum-payout filter of `_match` (saved_searches.py 94-98):
`if not (amt is not None and amt >= int(min_amount)): return False`. -/
def searchMinAmountPass (m : Int) (payout : String) : Bool :=
  match extractAmountVal payout with
  | none => false
  | some a => decide (a ≥ m)

/-- Keyword filter of `_match` (saved_searches.py 89-93): with a present,
nonempty `q`, every whitespace-separated term must occur in the lower-cased
title or description. -/
def searchQOk (data : Item) (params : SearchParams) : Bool :=
  match params.q with
  | none => true
  | some qs =>
    if qs.isEmpty then true
    else (searchTerms qs).all (fun term =>
      containsSub (pyLower (data.title.getD "")) term ||
      containsSub (pyLower (data.description.getD "")) term)

/-- Minimum-payout filter of `_match`: passes when unconfigured. -/
def searchMinOk (data : Item) (params : SearchParams) : Bool :=
  match params.min_amount with
  | none => true
  | some m => searchMinAmountPass m (data.payout.getD "")

/-- Location filter of `_match` (saved_searches.py 99-104): a blank filter
passes; a filter from the remote vocabulary requires the remote vocabulary in
the listing location; any other filter is a substring test. -/
def searchLocOk (data : Item) (params : SearchParams) : Bool :=
  let loc_q := pyStrip (pyLower (params.location.getD ""))
  if loc_q.isEmpty then true
  else if loc_q ∈ ["remote", "virtual", "online", "nationwide", "national"] then
    remoteVocabIn (pyLower (data.location.getD ""))
  else containsSub (pyLower (data.location.getD "")) loc_q

/-- Method filter of `_match` (saved_searches.py 105-106): a truthy `method`
parameter must be a substring of the lower-cased listing method. -/
def searchMethodOk (data : Item) (params : SearchParams) : Bool :=
  match params.method with
  | none => true
  | some m =>
    if m.isEmpty then true
    else containsSub (pyLower (data.method.getD "")) (pyLower m)

/-- Site filter of `_match` (saved_searches.py 107-108). -/
def searchSiteOk (data : Item) (params : SearchParams) : Bool :=
  match params.site with
  | none => true
  | some s =>
    if s.isEmpty then true
    else containsSub (pyLower (data.site.getD "")) (pyLower s)

/-- Remote-only filter of `_match` (saved_searches.py 109-110): requires the
remote vocabulary in the lower-cased listing location. -/
def searchRemoteOk (data : Item) (params : SearchParams) : Bool :=
  if params.remote_only then remoteVocabIn (pyLower (data.location.getD "")) else true

/-- Models `SavedSearchCog._match`, transliterated with its early returns: each
failed filter returns `False` immediately, reaching the end returns `True`. -/
def savedSearchMatch (data : Item) (params : SearchParams) : Bool :=
  if !searchQOk data params then false
  else if !searchMinOk data params then false
  else if !searchLocOk data params then false
  else if !searchMethodOk data params then false
  else if !searchSiteOk data params then false
  else if !searchRemoteOk data params then false
  else true

/-! ### Ingestion triggers and the (absent) overlap guard

`ClickCartelBot.perform_scrape` (bot.py 146-155) acquires no lock and checks
no in-flight flag before running; its three callers — the scheduled
`AdminCog.autoscrape_loop` (admin.py 274-291), the manual `/scrape` command
(admin.py 239-254) and `/rescrape` (admin.py 218-237) — call it directly,
also without any guard, and no "skipped due to in-progress" counter exists
anywhere in the repository.  All three run as coroutines on one event loop
and `perform_scrape` suspends at its awaits (`run_all`, `upsert_listings`),
so two invocations can be in flight at once.  The model below states exactly
this: a trigger of any kind unconditionally starts a run (there is no state
it inspects), and a running scrape eventually finishes; there is no
transition that skips a request, so the skip counter can never move. -/

inductive ScrapeTrigger where
  | auto
  | manual
  | rescrape
deriving DecidableEq, Repr

/-- Observable scheduler state: how many ingestion runs are in flight and how
many requests were ever skipped because one was in progress. -/
structure IngestState where
  inFlight : Nat
  skippedInProgress : Nat
deriving DecidableEq, Repr

inductive IngestStep : IngestState → IngestState → Prop
  /-- Any trigger starts a run immediately: `perform_scrape` consults no
  guard, so this transition is enabled in every state, including states with
  a run already in flight. -/
  | start (t : ScrapeTrigger) (s : IngestState) :
      IngestStep s { inFlight := s.inFlight + 1, skippedInProgress := s.skippedInProgress }
  /-- A run completes. -/
  | finish (s : IngestState) (h : 0 < s.inFlight) :
      IngestStep s { inFlight := s.inFlight - 1, skippedInProgress := s.skippedInProgress }

/-- States reachable from the boot state (no run in flight, nothing ever
skipped). -/
inductive IngestReachable : IngestState → Prop
  | init : IngestReachable { inFlight := 0, skippedInProgress := 0 }
  | step {s s' : IngestState} : IngestReachable s → IngestStep s s' → IngestReachable s'

/-! ### Store lifetime: every write operation of `DB` -/

/-- The write operations the `DB` service exposes (db.py); a store's lifetime
is any sequence of these starting from the schema-fresh empty store. -/
inductive StoreOp where
  | upsert (now : Nat) (objs : List PyObj)
  | markPosted (listing_id message_id channel_id : Nat)
  | markRejected (listing_id : Nat)
  | updateFields (now listing_id : Nat) (p : FieldPatch)
  | clear
  | markAnnounced (listing_id : Nat)
  | clearModCard (listing_id : Nat)

def applyOp (st : Store) : StoreOp → Store
  | .upsert now objs => (upsert_listings st now objs).1
  | .markPosted lid mid cid => mark_review_posted st lid mid cid
  | .markRejected lid => mark_review_rejected st lid
  | .updateFields now lid p => update_listing_fields st now lid p
  | .clear => clear_listings st
  | .markAnnounced lid => mark_moderation_announced st lid
  | .clearModCard lid => clear_moderation_card st lid

def applyOps (st : Store) (ops : List StoreOp) : Store := ops.foldl applyOp st

/-- No two rows of the `listings` table share a `(site, link)` pair — the
`UNIQUE(site, link)` constraint of the schema. -/
def UniqueKeys (st : Store) : Prop :=
  st.listings.Pairwise (fun a b => ¬(a.site = b.site ∧ a.link = b.link))

/-- The identity of a row as far as the pending query is concerned:
`posts` joins on `id`, `rejects` on `id` and on `(site, link)`. -/
def rowKey (r : Row) : Nat × String × String := (r.id, r.site, r.link)

/-- The pending predicate reads a row only through `rowKey` (its id, site and
link), besides the posts and rejects tables. -/
def pendKeep (posts : List Post) (rejects : List Reject)
    (k : Nat × String × String) : Bool :=
  !(posts.any (fun p => decide (p.listing_id = k.1))) &&
  !(rejects.any (fun rej =>
      decide (rej.listing_id = some k.1 ∨ (rej.site = k.2.1 ∧ rej.link = k.2.2))))



/-! ### Concrete instances used by the claim checks -/

/-- A scraped record with key `("A", "http://x/1")`. -/
def exItemA : Item :=
  { site := some "A", title := some "T1", link := some "http://x/1",
    payout := some "$200" }

/-- Ingest `exItemA` into a fresh store. -/
def c1StAfterFirst : Store := (upsert_listings emptyStore 0 [.item exItemA]).1

/-- Reject the freshly inserted listing (it received id 1). -/
def c1StRejected : Store := mark_review_rejected c1StAfterFirst 1

/-- A full `/rescrape`-style clear. -/
def c1StCleared : Store := clear_listings c1StRejected

/-- Re-ingest the identical record after the clear. -/
def c1StReingested : Store := (upsert_listings c1StCleared 1 [.item exItemA]).1

/-- A store with a standing reject for `("A", "L")` and two listings. -/
def c1wRowA : Row := { id := 1, site := "A", link := "L" }

def c1wRowB : Row := { id := 2, site := "B", link := "M" }

def c1wStore : Store :=
  { listings := [c1wRowA, c1wRowB],
    rejects := [{ id := 1, listing_id := some 1, site := "A", link := "L" }],
    nextId := 3, nextRejectId := 2 }

/-- A record re-ingesting the rejected key `("A", "L")`. -/
def c1wObj : PyObj := .item { site := some "A", link := some "L" }

/-- One adapter that returned a single listing. -/
def c2Listing : Listing :=
  { site := "A", title := "T1", link := "http://x/1", payout := "$200" }

def c2Scraped : List (Except String (List Listing)) := [.ok [c2Listing]]

/-- A store holding one listing with key `("A", "L")` and payout `$5`. -/
def c5Row : Row := { id := 1, site := "A", link := "L", payout := some "$5" }

def c5Store : Store := { listings := [c5Row], nextId := 2 }

/-- A re-scrape of the same key with a changed payout. -/
def c5Obj : PyObj := .item { site := some "A", link := some "L", payout := some "$9" }

/-- Rule A of the first-match scenario: minimum amount 100, destination
channel 100. -/
def ruleA : Rule := { id := 1, name := "A", min_amount := some 100, channel_id := some 100 }

/-- Rule B of the first-match scenario: remote required, destination
channel 200. -/
def ruleB : Rule := { id := 2, name := "B", require_remote := true, channel_id := some 200 }

/-- A pending listing with payout amount 150 and a remote location. -/
def listing150 : DisplayIt :=
  { id := 1, title := "T", site := "SiteX", payout := "$150", date_posted := "",
    location := "Remote", method := "", link := "http://x/1", description := "",
    image_url := "" }

/-- A posted listing with payout amount 100 located in New York. -/
def c7Data : Item := { payout := some "$100", location := some "New York" }

/-- A saved search requiring at least 50 and remote-only. -/
def c7Params : SearchParams := { min_amount := some 50, remote_only := true }

/-- Two same-run records sharing the key `("s", "l")` with different titles. -/
def c9L1 : Listing := { site := "s", title := "T1", link := "l" }

def c9L2 : Listing := { site := "s", title := "T2", link := "l" }

def c9Obj1 : PyObj := .item { site := some "W", link := some "K", title := some "first" }

def c9Obj2 : PyObj := .item { site := some "W", link := some "K", title := some "second" }

/-- The row stored after upserting `c9Obj1` then `c9Obj2` into a fresh store. -/
def c9wRow : Row :=
  { id := 1, site := "W", title := some "second", link := "K",
    created_at := 0, updated_at := 0 }

/-- A record whose site is whitespace-only after stripping. -/
def c10Obj : PyObj := .item { site := some "   ", link := some "http://x" }

/-! ## Lemma layer -/

theorem applyUpdate_id (now : Nat) (it : Item) (s l : String) (r : Row) :
    (applyUpdate now it s l r).id = r.id := by
  unfold applyUpdate; split <;> rfl

theorem applyUpdate_site (now : Nat) (it : Item) (s l : String) (r : Row) :
    (applyUpdate now it s l r).site = r.site := by
  unfold applyUpdate; split <;> rfl

theorem applyUpdate_link (now : Nat) (it : Item) (s l : String) (r : Row) :
    (applyUpdate now it s l r).link = r.link := by
  unfold applyUpdate; split
  · rename_i h; exact h.2.symm
  · rfl

theorem rowKey_applyUpdate (now : Nat) (it : Item) (s l : String) (r : Row) :
    rowKey (applyUpdate now it s l r) = rowKey r := by
  unfold rowKey
  rw [applyUpdate_id, applyUpdate_site, applyUpdate_link]

theorem any_key_map (rows : List Row) (f : Row → Row)
    (hf : ∀ r, (f r).site = r.site ∧ (f r).link = r.link) (s l : String) :
    (rows.map f).any (fun r => decide (r.site = s ∧ r.link = l)) =
      rows.any (fun r => decide (r.site = s ∧ r.link = l)) := by
  induction rows with
  | nil => rfl
  | cons r t ih =>
    simp only [List.map_cons, List.any_cons, ih, (hf r).1, (hf r).2]

/-- Rephrasing `validObj` as the guard expression inside `upsertOne`. -/
theorem validObj_iff (o : PyObj) :
    validObj o = true ↔ ((itemSite o).isEmpty || (itemLink o).isEmpty) = false := by
  unfold validObj
  cases (itemSite o).isEmpty <;> cases (itemLink o).isEmpty <;> simp

theorem upsertOne_invalid (st : Store) (now : Nat) (o : PyObj)
    (h : validObj o = false) : upsertOne st now o = (st, 0) := by
  unfold upsertOne
  have : ((itemSite o).isEmpty || (itemLink o).isEmpty) = true := by
    unfold validObj at h
    cases hs : (itemSite o).isEmpty <;> cases hl : (itemLink o).isEmpty <;>
      simp_all
  simp only [this, if_true]

theorem upsertOne_update (st : Store) (now : Nat) (o : PyObj)
    (hv : validObj o = true) (hk : hasKey st (itemSite o) (itemLink o) = true) :
    upsertOne st now o =
      ({ st with listings :=
          st.listings.map (applyUpdate now (asItem o) (itemSite o) (itemLink o)) }, 0) := by
  unfold upsertOne
  simp only [(validObj_iff o).mp hv, Bool.false_eq_true, if_false, hk, if_true]

theorem upsertOne_insert (st : Store) (now : Nat) (o : PyObj)
    (hv : validObj o = true) (hk : hasKey st (itemSite o) (itemLink o) = false) :
    upsertOne st now o =
      ({ st with
          listings := st.listings ++
            [insertedRow st now (asItem o) (itemSite o) (itemLink o)],
          nextId := st.nextId + 1 }, 1) := by
  unfold upsertOne
  simp only [(validObj_iff o).mp hv, Bool.false_eq_true, if_false, hk]

theorem upsertOne_posts (st : Store) (now : Nat) (o : PyObj) :
    (upsertOne st now o).1.posts = st.posts := by
  by_cases hv : validObj o = true
  · by_cases hk : hasKey st (itemSite o) (itemLink o) = true
    · rw [upsertOne_update st now o hv hk]
    · rw [upsertOne_insert st now o hv (Bool.not_eq_true _ ▸ hk)]
  · rw [upsertOne_invalid st now o (Bool.not_eq_true _ ▸ hv)]

theorem upsertOne_rejects (st : Store) (now : Nat) (o : PyObj) :
    (upsertOne st now o).1.rejects = st.rejects := by
  by_cases hv : validObj o = true
  · by_cases hk : hasKey st (itemSite o) (itemLink o) = true
    · rw [upsertOne_update st now o hv hk]
    · rw [upsertOne_insert st now o hv (Bool.not_eq_true _ ▸ hk)]
  · rw [upsertOne_invalid st now o (Bool.not_eq_true _ ▸ hv)]

/-- A successful update pass leaves every `(site, link)` membership fact
unchanged: `applyUpdate` rewrites neither `site` nor `link`. -/
theorem hasKey_map_applyUpdate (st : Store) (now : Nat) (it : Item)
    (s0 l0 s l : String) :
    hasKey { st with listings := st.listings.map (applyUpdate now it s0 l0) } s l =
      hasKey st s l := by
  unfold hasKey
  exact any_key_map st.listings _
    (fun r => ⟨applyUpdate_site now it s0 l0 r, applyUpdate_link now it s0 l0 r⟩) s l

theorem upsertOne_hasKey_self (st : Store) (now : Nat) (o : PyObj)
    (hv : validObj o = true) :
    hasKey (upsertOne st now o).1 (itemSite o) (itemLink o) = true := by
  by_cases hk : hasKey st (itemSite o) (itemLink o) = true
  · rw [upsertOne_update st now o hv hk]
    rw [hasKey_map_applyUpdate]
    exact hk
  · rw [upsertOne_insert st now o hv (Bool.not_eq_true _ ▸ hk)]
    unfold hasKey
    simp [insertedRow]

theorem upsertOne_hasKey_mono (st : Store) (now : Nat) (o : PyObj) (s l : String)
    (h : hasKey st s l = true) :
    hasKey (upsertOne st now o).1 s l = true := by
  by_cases hv : validObj o = true
  · by_cases hk : hasKey st (itemSite o) (itemLink o) = true
    · rw [upsertOne_update st now o hv hk, hasKey_map_applyUpdate]; exact h
    · rw [upsertOne_insert st now o hv (Bool.not_eq_true _ ▸ hk)]
      unfold hasKey at h ⊢
      simp only [List.any_append, h, Bool.true_or]
  · rw [upsertOne_invalid st now o (Bool.not_eq_true _ ▸ hv)]; exact h

/-- Shifting the `new_count` accumulator out of the `upsert_listings`
fold. -/
theorem upsertFoldl_shift (now : Nat) (objs : List PyObj) :
    ∀ (st : Store) (c : Nat),
      objs.foldl (fun acc o => let r := upsertOne acc.1 now o; (r.1, acc.2 + r.2)) (st, c) =
        ((upsertAll st now objs).1, c + (upsertAll st now objs).2) := by
  induction objs with
  | nil => intro st c; simp [upsertAll]
  | cons x t ih =>
    intro st c
    simp only [List.foldl_cons]
    show t.foldl _ ((upsertOne st now x).1, c + (upsertOne st now x).2) = _
    rw [ih ((upsertOne st now x).1) (c + (upsertOne st now x).2)]
    have hrhs : upsertAll st now (x :: t) =
        ((upsertAll (upsertOne st now x).1 now t).1,
          (0 + (upsertOne st now x).2) + (upsertAll (upsertOne st now x).1 now t).2) := by
      show t.foldl _ _ = _
      exact ih ((upsertOne st now x).1) (0 + (upsertOne st now x).2)
    rw [hrhs]
    simp only [Prod.mk.injEq, true_and]
    omega

/-- Unfolding `upsertAll` on a cons, with the count accumulator shifted out. -/
theorem upsertAll_cons (st : Store) (now : Nat) (o : PyObj) (objs : List PyObj) :
    upsertAll st now (o :: objs) =
      ((upsertAll (upsertOne st now o).1 now objs).1,
        (upsertOne st now o).2 + (upsertAll (upsertOne st now o).1 now objs).2) := by
  show (o :: objs).foldl _ (st, 0) = _
  simp only [List.foldl_cons]
  show objs.foldl _ ((upsertOne st now o).1, 0 + (upsertOne st now o).2) = _
  rw [upsertFoldl_shift now objs ((upsertOne st now o).1) (0 + (upsertOne st now o).2)]
  simp only [Prod.mk.injEq, true_and]
  omega

theorem upsertAll_hasKey_mono (objs : List PyObj) (st : Store) (now : Nat)
    (s l : String) (h : hasKey st s l = true) :
    hasKey (upsertAll st now objs).1 s l = true := by
  induction objs generalizing st with
  | nil => exact h
  | cons o t ih =>
    rw [upsertAll_cons]
    exact ih _ (upsertOne_hasKey_mono st now o s l h)

theorem upsertAll_posts (objs : List PyObj) (st : Store) (now : Nat) :
    (upsertAll st now objs).1.posts = st.posts := by
  induction objs generalizing st with
  | nil => rfl
  | cons o t ih => rw [upsertAll_cons]; simp only [ih, upsertOne_posts]

theorem upsertAll_rejects (objs : List PyObj) (st : Store) (now : Nat) :
    (upsertAll st now objs).1.rejects = st.rejects := by
  induction objs generalizing st with
  | nil => rfl
  | cons o t ih => rw [upsertAll_cons]; simp only [ih, upsertOne_rejects]

/-- Every valid record of the batch has its `(site, link)` present after the
batch ran: its own iteration put it there, later ones never remove it. -/
theorem upsertAll_establishes (objs : List PyObj) (st : Store) (now : Nat) :
    ∀ o ∈ objs, validObj o = true →
      hasKey (upsertAll st now objs).1 (itemSite o) (itemLink o) = true := by
  induction objs generalizing st with
  | nil => intro o ho; cases ho
  | cons x t ih =>
    intro o ho hv
    rw [upsertAll_cons]
    rcases List.mem_cons.mp ho with rfl | hmem
    · exact upsertAll_hasKey_mono t _ now _ _ (upsertOne_hasKey_self st now o hv)
    · exact ih _ o hmem hv

theorem map_rowKey_applyUpdate (rows : List Row) (now : Nat) (it : Item)
    (s l : String) :
    (rows.map (applyUpdate now it s l)).map rowKey = rows.map rowKey := by
  rw [List.map_map]
  exact List.map_congr_left (fun r _ => rowKey_applyUpdate now it s l r)

/-- When every valid record of a batch already has its key in the store, the
whole batch inserts nothing and leaves every row identity, the posts and the
rejects untouched. -/
theorem upsertAll_shape (objs : List PyObj) (st : Store) (now : Nat)
    (h : ∀ o ∈ objs, validObj o = true →
      hasKey st (itemSite o) (itemLink o) = true) :
    (upsertAll st now objs).2 = 0 ∧
    (upsertAll st now objs).1.listings.map rowKey = st.listings.map rowKey ∧
    (upsertAll st now objs).1.posts = st.posts ∧
    (upsertAll st now objs).1.rejects = st.rejects := by
  induction objs generalizing st with
  | nil => exact ⟨rfl, rfl, rfl, rfl⟩
  | cons o t ih =>
    rw [upsertAll_cons]
    by_cases hv : validObj o = true
    · have hk := h o (List.mem_cons_self o t) hv
      rw [upsertOne_update st now o hv hk]
      have hstep : ∀ o2 ∈ t, validObj o2 = true →
          hasKey { st with listings :=
            st.listings.map (applyUpdate now (asItem o) (itemSite o) (itemLink o)) }
            (itemSite o2) (itemLink o2) = true := by
        intro o2 ho2 hv2
        rw [hasKey_map_applyUpdate]
        exact h o2 (List.mem_cons_of_mem o ho2) hv2
      have ihr := ih _ hstep
      refine ⟨by simpa using ihr.1, ?_, by simpa using ihr.2.2.1, by simpa using ihr.2.2.2⟩
      calc (upsertAll _ now t).1.listings.map rowKey
          = (st.listings.map (applyUpdate now (asItem o) (itemSite o) (itemLink o))).map rowKey :=
            ihr.2.1
        _ = st.listings.map rowKey := map_rowKey_applyUpdate st.listings now _ _ _
    · rw [upsertOne_invalid st now o (Bool.not_eq_true _ ▸ hv)]
      have ihr := ih st (fun o2 ho2 hv2 => h o2 (List.mem_cons_of_mem o ho2) hv2)
      exact ⟨by simpa using ihr.1, ihr.2.1, ihr.2.2.1, ihr.2.2.2⟩

theorem isPending_eq_pendKeep (st : Store) (r : Row) :
    isPending st r = pendKeep st.posts st.rejects (rowKey r) := rfl

theorem pendingCount_eq_countP (st : Store) :
    pendingCount st = (st.listings.map rowKey).countP (pendKeep st.posts st.rejects) := by
  unfold pendingCount
  rw [← List.countP_eq_length_filter, List.countP_map]
  rfl

theorem pendingCount_congr (st st' : Store)
    (hl : st'.listings.map rowKey = st.listings.map rowKey)
    (hp : st'.posts = st.posts) (hr : st'.rejects = st.rejects) :
    pendingCount st' = pendingCount st := by
  rw [pendingCount_eq_countP, pendingCount_eq_countP, hl, hp, hr]

/-! Sorting by descending id is a permutation-free membership story: the
insertion sort of `get_pending_reviews` neither adds nor drops rows. -/

theorem mem_insertByIdDesc (a r : Row) (t : List Row) :
    a ∈ insertByIdDesc r t ↔ a = r ∨ a ∈ t := by
  induction t with
  | nil => simp [insertByIdDesc]
  | cons x xs ih =>
    unfold insertByIdDesc
    split
    · simp [List.mem_cons]
    · simp only [List.mem_cons, ih]
      tauto

theorem mem_sortByIdDesc (a : Row) (t : List Row) :
    a ∈ sortByIdDesc t ↔ a ∈ t := by
  induction t with
  | nil => simp [sortByIdDesc]
  | cons x xs ih =>
    unfold sortByIdDesc
    rw [mem_insertByIdDesc, ih, List.mem_cons]

/-! Python `max` over a nonempty list returns an element bounding the list. -/

theorem foldl_max_le_self (t : List Int) (a : Int) : a ≤ t.foldl max a := by
  induction t generalizing a with
  | nil => exact le_refl a
  | cons x xs ih => exact le_trans (le_max_left a x) (ih (max a x))

theorem foldl_max_mem_or (t : List Int) (a : Int) :
    t.foldl max a = a ∨ t.foldl max a ∈ t := by
  induction t generalizing a with
  | nil => exact Or.inl rfl
  | cons x xs ih =>
    rcases ih (max a x) with h | h
    · rcases max_choice a x with hm | hm
      · exact Or.inl (by rw [List.foldl_cons, h, hm])
      · exact Or.inr (by rw [List.foldl_cons, h, hm]; exact List.mem_cons_self x xs)
    · exact Or.inr (List.mem_cons_of_mem x h)

theorem foldl_max_ge (t : List Int) (a b : Int) (hb : b ∈ t) : b ≤ t.foldl max a := by
  induction t generalizing a with
  | nil => cases hb
  | cons x xs ih =>
    rcases List.mem_cons.mp hb with rfl | h
    · exact le_trans (le_max_right a b) (foldl_max_le_self xs (max a b))
    · exact ih (max a x) h

theorem pyMax_spec (l : List Int) (a : Int) (h : pyMax l = some a) :
    a ∈ l ∧ ∀ b ∈ l, b ≤ a := by
  cases l with
  | nil => cases h
  | cons x t =>
    have ha : t.foldl max x = a := by simpa [pyMax] using h
    constructor
    · rcases foldl_max_mem_or t x with hm | hm
      · have hax : a = x := by rw [← ha, hm]
        rw [hax]; exact List.mem_cons_self x t
      · exact List.mem_cons_of_mem x (ha ▸ hm)
    · intro b hb
      rw [← ha]
      rcases List.mem_cons.mp hb with rfl | hbm
      · exact foldl_max_le_self t b
      · exact foldl_max_ge t x b hbm

/-! Uniqueness of `(site, link)` through every store operation. -/

theorem uniqueKeys_map_site_link (rows : List Row) (f : Row → Row)
    (hf : ∀ r, (f r).site = r.site ∧ (f r).link = r.link)
    (h : rows.Pairwise (fun a b => ¬(a.site = b.site ∧ a.link = b.link))) :
    (rows.map f).Pairwise (fun a b => ¬(a.site = b.site ∧ a.link = b.link)) := by
  rw [List.pairwise_map]
  refine h.imp ?_
  intro a b hab
  rw [(hf a).1, (hf a).2, (hf b).1, (hf b).2]
  exact hab

theorem uniqueKeys_upsertOne (st : Store) (now : Nat) (o : PyObj)
    (h : UniqueKeys st) : UniqueKeys (upsertOne st now o).1 := by
  by_cases hv : validObj o = true
  · by_cases hk : hasKey st (itemSite o) (itemLink o) = true
    · rw [upsertOne_update st now o hv hk]
      exact uniqueKeys_map_site_link st.listings _
        (fun r => ⟨applyUpdate_site now _ _ _ r, applyUpdate_link now _ _ _ r⟩) h
    · rw [upsertOne_insert st now o hv (Bool.not_eq_true _ ▸ hk)]
      show (st.listings ++ [insertedRow st now (asItem o) (itemSite o) (itemLink o)]).Pairwise _
      rw [List.pairwise_append]
      refine ⟨h, List.pairwise_singleton _ _, ?_⟩
      intro a ha b hb
      rw [List.mem_singleton.mp hb]
      have hfalse : hasKey st (itemSite o) (itemLink o) = false := Bool.not_eq_true _ ▸ hk
      unfold hasKey at hfalse
      rw [List.any_eq_false] at hfalse
      have := hfalse a ha
      simp only [decide_eq_true_eq] at this
      exact fun hc => this ⟨hc.1, hc.2⟩
  · rw [upsertOne_invalid st now o (Bool.not_eq_true _ ▸ hv)]
    exact h

theorem uniqueKeys_upsertAll (objs : List PyObj) (st : Store) (now : Nat)
    (h : UniqueKeys st) : UniqueKeys (upsertAll st now objs).1 := by
  induction objs generalizing st with
  | nil => exact h
  | cons o t ih =>
    rw [upsertAll_cons]
    exact ih _ (uniqueKeys_upsertOne st now o h)

theorem uniqueKeys_applyOp (st : Store) (op : StoreOp)
    (h : UniqueKeys st) : UniqueKeys (applyOp st op) := by
  cases op with
  | upsert now objs => exact uniqueKeys_upsertAll objs st now h
  | markPosted lid mid cid => exact h
  | markRejected lid =>
    show UniqueKeys (mark_review_rejected st lid)
    unfold mark_review_rejected
    split
    · exact h
    · split
      · exact h
      · exact h
  | updateFields now lid p =>
    show UniqueKeys (update_listing_fields st now lid p)
    unfold update_listing_fields
    split
    · exact h
    · exact uniqueKeys_map_site_link st.listings _ (fun r => by split <;> exact ⟨rfl, rfl⟩) h
  | clear => exact List.Pairwise.nil
  | markAnnounced lid => exact h
  | clearModCard lid => exact h

theorem uniqueKeys_applyOps (ops : List StoreOp) (st : Store)
    (h : UniqueKeys st) : UniqueKeys (applyOps st ops) := by
  induction ops generalizing st with
  | nil => exact h
  | cons op t ih => exact ih _ (uniqueKeys_applyOp st op h)

/-! The collector gathers the successful scraper results in order. -/

theorem run_scrapers_eq_flatten (scraped : List (Except String (List Listing))) :
    run_scrapers scraped =
      (scraped.map (fun r => match r with | .ok ls => ls | .error _ => [])).flatten := by
  have go : ∀ (l : List (Except String (List Listing))) (acc : List Listing),
      l.foldl (fun results res =>
        match res with
        | .error _ => results
        | .ok ls => results ++ ls) acc =
      acc ++ (l.map (fun r => match r with | .ok ls => ls | .error _ => [])).flatten := by
    intro l
    induction l with
    | nil => intro acc; simp
    | cons x t ih =>
      intro acc
      cases x with
      | error e => simpa using ih acc
      | ok ls => simp [ih (acc ++ ls)]
  simpa using go scraped []

/-! ## Claim theorems -/

/-- C2: the ingestion pipeline is broken in the code: `ScraperManager.run_all`
computes the collector's results and then returns the constant dict
`{"new": 0, "total": 0}` instead, so `perform_scrape` reports
`total_found = 2` (the dict's length) regardless of what the adapters
produced, and the collector's listings are never passed to
`upsert_listings` — here one adapter returned one listing, yet the summary is
`{total_found := 2, new := 0, queued := 0}` and the store stays empty. -/
theorem perform_scrape_discards_collector_results :
    run_scrapers c2Scraped = [c2Listing] ∧
    (run_scrapers c2Scraped).length = 1 ∧
    perform_scrape emptyStore 0 c2Scraped =
      (emptyStore, { total_found := 2, new := 0, queued := 0 }) ∧
    (2 : Nat) ≠ (run_scrapers c2Scraped).length := by
  refine ⟨by decide, by decide, by decide, by decide⟩

/-- C3 counterexample: a state with two ingestion runs in flight and zero
skipped requests is reachable (a scheduled trigger followed by a manual
trigger before the first run finishes), refuting "at most one ingestion run
is ever in flight / the second request is skipped". -/
theorem two_ingestion_runs_in_flight :
    IngestReachable { inFlight := 2, skippedInProgress := 0 } :=
  IngestReachable.step
    (IngestReachable.step IngestReachable.init
      (IngestStep.start ScrapeTrigger.auto _))
    (IngestStep.start ScrapeTrigger.manual _)

/-- C3 amended: the code has no mutual-exclusion guard at all —
`perform_scrape` consults no lock or in-flight flag, so every trigger
(scheduled or manual) unconditionally starts a run even while another is
active, and no request is ever skipped or queued: along every reachable
execution the "skipped due to in-progress" count stays zero, and the
start transition is enabled in every state. -/
theorem no_overlap_guard_no_skips :
    (∀ s : IngestState, IngestReachable s → s.skippedInProgress = 0) ∧
    (∀ (s : IngestState) (t : ScrapeTrigger),
      IngestStep s { inFlight := s.inFlight + 1,
                     skippedInProgress := s.skippedInProgress }) := by
  constructor
  · intro s h
    induction h with
    | init => rfl
    | step hr hs ih => cases hs <;> exact ih
  · intro s t
    exact IngestStep.start t s

/-- C3 witness: after a scheduled and a manual trigger overlap, the skip
counter is still zero. -/
theorem no_overlap_guard_no_skips_witness :
    ({ inFlight := 2, skippedInProgress := 0 } : IngestState).skippedInProgress = 0 :=
  no_overlap_guard_no_skips.1 _
    (IngestReachable.step
      (IngestReachable.step IngestReachable.init
        (IngestStep.start ScrapeTrigger.auto _))
      (IngestStep.start ScrapeTrigger.manual _))

/-- C8: in both the rule engine and the saved-search matcher the
minimum-payout filter passes exactly when the payout string's maximum
parseable numeric amount exists and reaches the minimum; the extracted value
is the maximum of the parseable candidates; an absent or unparseable payout
always fails a configured minimum-amount filter. -/
theorem min_payout_filter_spec :
    (∀ (m : Int) (p : String),
      ruleMinAmountPass (some m) p = true ↔
        ∃ a, extractAmountVal p = some a ∧ m ≤ a) ∧
    (∀ (m : Int) (p : String),
      searchMinAmountPass m p = true ↔
        ∃ a, extractAmountVal p = some a ∧ m ≤ a) ∧
    (∀ (p : String) (a : Int), extractAmountVal p = some a →
      a ∈ amountCandidates p ∧ ∀ b ∈ amountCandidates p, b ≤ a) ∧
    (∀ (m : Int) (p : String), extractAmountVal p = none →
      ruleMinAmountPass (some m) p = false ∧ searchMinAmountPass m p = false) := by
  refine ⟨?_, ?_, ?_, ?_⟩
  · intro m p
    unfold ruleMinAmountPass
    cases hext : extractAmountVal p with
    | none => simp
    | some a => simp
  · intro m p
    unfold searchMinAmountPass
    cases hext : extractAmountVal p with
    | none => simp
    | some a => simp [ge_iff_le]
  · intro p a h
    unfold extractAmountVal at h
    split at h
    · cases h
    · exact pyMax_spec _ _ h
  · intro m p h
    unfold ruleMinAmountPass searchMinAmountPass
    rw [h]
    exact ⟨rfl, rfl⟩

/-- C8 witness: concrete filter evaluations through the specification. -/
theorem min_payout_filter_spec_witness :
    ruleMinAmountPass (some 100) "$150" = true ∧
    searchMinAmountPass 50 "$1,500 - $2,000" = true ∧
    (150 ∈ amountCandidates "$150" ∧ ∀ b ∈ amountCandidates "$150", b ≤ (150 : Int)) ∧
    (ruleMinAmountPass (some 10) "free" = false ∧ searchMinAmountPass 10 "free" = false) :=
  ⟨(min_payout_filter_spec.1 100 "$150").mpr ⟨150, by decide, by decide⟩,
   (min_payout_filter_spec.2.1 50 "$1,500 - $2,000").mpr ⟨2000, by decide, by decide⟩,
   min_payout_filter_spec.2.2.1 "$150" 150 (by decide),
   min_payout_filter_spec.2.2.2 10 "free" (by decide)⟩

/-- C10: a record whose site or link is missing, `None`, or whitespace-only
after stripping is silently skipped by `upsert_listings`: it changes no row
and contributes nothing to the returned counts. -/
theorem upsert_skips_blank_site_or_link (st : Store) (now : Nat) (o : PyObj)
    (rest : List PyObj)
    (h : (itemSite o).isEmpty = true ∨ (itemLink o).isEmpty = true) :
    upsertOne st now o = (st, 0) ∧
    upsert_listings st now (o :: rest) = upsert_listings st now rest := by
  have hv : validObj o = false := by
    unfold validObj
    rcases h with h | h <;> simp [h]
  have h1 := upsertOne_invalid st now o hv
  refine ⟨h1, ?_⟩
  have hall : upsertAll st now (o :: rest) = upsertAll st now rest := by
    rw [upsertAll_cons, h1]
    show ((upsertAll st now rest).1, 0 + (upsertAll st now rest).2) = upsertAll st now rest
    rw [Nat.zero_add]
  unfold upsert_listings
  rw [hall]

/-- C10 witness: a whitespace-only site is skipped on a fresh store. -/
theorem upsert_skips_blank_site_or_link_witness :
    upsertOne emptyStore 3 c10Obj = (emptyStore, 0) ∧
    upsert_listings emptyStore 3 [c10Obj] = upsert_listings emptyStore 3 [] :=
  upsert_skips_blank_site_or_link emptyStore 3 c10Obj [] (Or.inl (by decide))

/-- C4: `upsert_listings` is idempotent per listing set — re-running it with
the identical batch on the resulting store inserts nothing (`newCount = 0`)
and reports the same pending count as the first run. -/
theorem upsert_listings_idempotent (st : Store) (now1 now2 : Nat)
    (objs : List PyObj) :
    (upsert_listings (upsert_listings st now1 objs).1 now2 objs).2.1 = 0 ∧
    (upsert_listings (upsert_listings st now1 objs).1 now2 objs).2.2 =
      (upsert_listings st now1 objs).2.2 := by
  have hkeys : ∀ o ∈ objs, validObj o = true →
      hasKey (upsertAll st now1 objs).1 (itemSite o) (itemLink o) = true :=
    upsertAll_establishes objs st now1
  have hshape := upsertAll_shape objs (upsertAll st now1 objs).1 now2 hkeys
  constructor
  · show (upsertAll (upsertAll st now1 objs).1 now2 objs).2 = 0
    exact hshape.1
  · show pendingCount (upsertAll (upsertAll st now1 objs).1 now2 objs).1 =
      pendingCount (upsertAll st now1 objs).1
    exact pendingCount_congr _ _ hshape.2.1 hshape.2.2.1 hshape.2.2.2

/-- C6: the rule loop of `_auto_post_rules` routes every listing by the first
rule (in the enabled, id-ordered list) whose filters all pass; in particular
with rules `[A: minAmount=100 → channel 100, B: remote → channel 200]` a
listing with payout amount 150 and a remote location is routed by rule A
(even though rule B also matches), to channel 100 and not to B's 200. -/
theorem rule_engine_first_match :
    (∀ (it : DisplayIt) (rules : List Rule),
      routeRule it rules = rules.find? (fun d => ruleStep it d)) ∧
    autoRouteFor [ruleA, ruleB] listing150 = some ruleA ∧
    ruleStep listing150 ruleB = true ∧
    ruleChanId none ruleA = 100 ∧
    ruleChanId none ruleB = 200 := by
  refine ⟨?_, by decide, by decide, by decide, by decide⟩
  intro it rules
  induction rules with
  | nil => rfl
  | cons d rest ih =>
    unfold routeRule
    by_cases h : ruleStep it d = true
    · rw [if_pos h, List.find?_cons_of_pos _ h]
    · rw [if_neg h, List.find?_cons_of_neg _ h, ih]

/-- C7: the saved-search predicate is the conjunction of its six configured
filters (keywords in title/description, minimum payout via the shared
extractor, remote-special-cased location, method substring, site substring,
remote-only vocabulary); consequently a search with `minAmount = 50` and
`remote_only = true` does not match a listing with payout `$100` and location
"New York" — the payout filter passes but the remote-only filter fails. -/
theorem saved_search_and_semantics :
    (∀ (data : Item) (params : SearchParams),
      savedSearchMatch data params =
        (searchQOk data params && searchMinOk data params &&
         searchLocOk data params && searchMethodOk data params &&
         searchSiteOk data params && searchRemoteOk data params)) ∧
    savedSearchMatch c7Data c7Params = false ∧
    searchMinOk c7Data c7Params = true ∧
    searchRemoteOk c7Data c7Params = false := by
  refine ⟨?_, by decide, by decide, by decide⟩
  intro data params
  unfold savedSearchMatch
  cases h1 : searchQOk data params <;> cases h2 : searchMinOk data params <;>
    cases h3 : searchLocOk data params <;> cases h4 : searchMethodOk data params <;>
      cases h5 : searchSiteOk data params <;> cases h6 : searchRemoteOk data params <;>
        simp

/-- C5: across any lifetime of the store (any sequence of DB write operations
from the fresh schema), no two listing rows ever share a `(site, link)` pair;
and upserting a record whose `(site, link)` already exists updates the
existing row in place — same id, same key, same `created_at`, new mutable
fields (e.g. the payout) and `updated_at` bumped to the current clock — with
the row count unchanged and nothing inserted. -/
theorem listing_keys_unique_and_upsert_updates_in_place :
    (∀ ops : List StoreOp, UniqueKeys (applyOps emptyStore ops)) ∧
    (∀ (st : Store) (now : Nat) (o : PyObj) (r0 : Row),
      r0 ∈ st.listings → validObj o = true →
      r0.site = itemSite o → r0.link = itemLink o →
      (upsertOne st now o).2 = 0 ∧
      (upsertOne st now o).1.listings.length = st.listings.length ∧
      ∃ r ∈ (upsertOne st now o).1.listings,
        r.id = r0.id ∧ r.site = r0.site ∧ r.link = r0.link ∧
        r.created_at = r0.created_at ∧
        r.payout = (asItem o).payout ∧ r.updated_at = now) := by
  constructor
  · intro ops
    exact uniqueKeys_applyOps ops emptyStore List.Pairwise.nil
  · intro st now o r0 hmem hv hsite hlink
    have hk : hasKey st (itemSite o) (itemLink o) = true := by
      unfold hasKey
      rw [List.any_eq_true]
      exact ⟨r0, hmem, by simp [hsite, hlink]⟩
    rw [upsertOne_update st now o hv hk]
    refine ⟨rfl, by simp, ?_⟩
    refine ⟨applyUpdate now (asItem o) (itemSite o) (itemLink o) r0,
      List.mem_map_of_mem _ hmem, ?_⟩
    unfold applyUpdate
    rw [if_pos ⟨hsite, hlink⟩]
    exact ⟨rfl, rfl, hlink.symm, rfl, rfl, rfl⟩

/-- C5 witness: re-scraping key `("A", "L")` with payout `$9` over a store
holding that key with payout `$5` updates the row in place, and a concrete
lifetime keeps the keys unique. -/
theorem listing_keys_unique_and_upsert_updates_in_place_witness :
    UniqueKeys (applyOps emptyStore [StoreOp.upsert 0 [c5Obj]]) ∧
    ((upsertOne c5Store 7 c5Obj).2 = 0 ∧
     (upsertOne c5Store 7 c5Obj).1.listings.length = c5Store.listings.length ∧
     ∃ r ∈ (upsertOne c5Store 7 c5Obj).1.listings,
       r.id = c5Row.id ∧ r.site = c5Row.site ∧ r.link = c5Row.link ∧
       r.created_at = c5Row.created_at ∧
       r.payout = (asItem c5Obj).payout ∧ r.updated_at = 7) :=
  ⟨listing_keys_unique_and_upsert_updates_in_place.1 [StoreOp.upsert 0 [c5Obj]],
   listing_keys_unique_and_upsert_updates_in_place.2 c5Store 7 c5Obj c5Row
     (by decide) (by decide) (by decide) (by decide)⟩

/-- C1 counterexample: `clear_listings` deletes the `rejects` table, so the
claimed permanence across a full clear fails — after ingesting
`("A", "http://x/1")`, rejecting it (which empties the pending queue),
clearing, and re-ingesting the identical record, the pair is pending
again. -/
theorem rejected_key_resurfaces_after_clear :
    (∃ rej ∈ c1StRejected.rejects, rej.site = "A" ∧ rej.link = "http://x/1") ∧
    get_pending_reviews c1StRejected = [] ∧
    (∃ r ∈ get_pending_reviews c1StReingested,
      r.site = "A" ∧ r.link = "http://x/1") := by
  refine ⟨by decide, by decide, by decide⟩

/-- C1 (amended): as long as no `clear_listings` intervenes, rejection is
permanent — a reject row is keyed by `(site, link)`, `upsert_listings` never
touches the rejects table, and the pending query excludes any listing whose
`(site, link)` matches a reject row, so a re-ingested rejected pair never
appears in `get_pending_reviews` (and hence is never seen by the rule sweep
or moderation announce, which read only pending rows).  A full
`clear_listings` deletes the rejects table and voids the guarantee. -/
theorem rejection_permanent_without_clear (st : Store) (s l : String)
    (hrej : ∃ rej ∈ st.rejects, rej.site = s ∧ rej.link = l)
    (now : Nat) (objs : List PyObj) :
    ∀ r ∈ get_pending_reviews (upsert_listings st now objs).1,
      ¬(r.site = s ∧ r.link = l) := by
  intro r hr hc
  obtain ⟨rej, hrejmem, hrs, hrl⟩ := hrej
  have hr2 : r ∈ (upsert_listings st now objs).1.listings.filter
      (isPending (upsert_listings st now objs).1) :=
    (mem_sortByIdDesc r _).mp hr
  have hpend : isPending (upsert_listings st now objs).1 r = true :=
    List.of_mem_filter hr2
  have hrejeq : (upsert_listings st now objs).1.rejects = st.rejects := by
    show (upsertAll st now objs).1.rejects = st.rejects
    exact upsertAll_rejects objs st now
  have hnotrej : isRejected (upsert_listings st now objs).1 r = false := by
    unfold isPending at hpend
    cases hx : isRejected (upsert_listings st now objs).1 r
    · rfl
    · rw [hx] at hpend; simp at hpend
  unfold isRejected at hnotrej
  rw [List.any_eq_false] at hnotrej
  have hne := hnotrej rej (by rw [hrejeq]; exact hrejmem)
  simp only [decide_eq_true_eq] at hne
  exact hne (Or.inr ⟨hrs.trans hc.1.symm, hrl.trans hc.2.symm⟩)

/-- C1 witness: with a standing reject for `("A", "L")` and a batch
re-ingesting it, a listing that is pending afterwards is not the rejected
pair. -/
theorem rejection_permanent_without_clear_witness :
    ¬(c1wRowB.site = "A" ∧ c1wRowB.link = "L") :=
  rejection_permanent_without_clear c1wStore "A" "L"
    ⟨{ id := 1, listing_id := some 1, site := "A", link := "L" },
      by decide, rfl, rfl⟩
    5 [c1wObj] c1wRowB (by decide)

/-- C9 counterexample: the collector performs no within-run deduplication,
and when two same-run records share a `(site, link)` the stored row carries
the fields of the LAST occurrence, not the first: after upserting
`[T1, T2]` for the same key, the stored title is `T2`. -/
theorem collector_duplicates_last_write_wins_cex :
    run_scrapers [.ok [c9L1, c9L2]] = [c9L1, c9L2] ∧
    c9L1.title = "T1" ∧
    ((upsert_listings emptyStore 0
        [.item c9L1.toItem, .item c9L2.toItem]).1.listings.map
      (fun r => r.title)) = [some "T2"] := by
  refine ⟨by decide, by decide, by decide⟩

/-- C9 (amended): the collector's output is the concatenation of the
successful adapter results in order, duplicates preserved; when two records
of one run share a `(site, link)`, a single row is stored for the pair (the
first occurrence inserts, later ones update it), and its mutable fields are
those of the last occurrence. -/
theorem collector_concat_and_duplicate_key_last_wins :
    (∀ scraped : List (Except String (List Listing)),
      run_scrapers scraped =
        (scraped.map (fun r => match r with | .ok ls => ls | .error _ => [])).flatten) ∧
    (∀ (st : Store) (now : Nat) (o1 o2 : PyObj),
      validObj o1 = true → validObj o2 = true →
      itemSite o1 = itemSite o2 → itemLink o1 = itemLink o2 →
      ∀ r ∈ (upsertAll st now [o1, o2]).1.listings,
        r.site = itemSite o2 → r.link = itemLink o2 →
        r.title = (asItem o2).title ∧ r.payout = (asItem o2).payout ∧
        r.description = (asItem o2).description) := by
  constructor
  · exact run_scrapers_eq_flatten
  · intro st now o1 o2 hv1 hv2 hsite hlink r hr hrs hrl
    have hstep : (upsertAll st now [o1, o2]).1 =
        (upsertOne (upsertOne st now o1).1 now o2).1 := rfl
    have hk2 : hasKey (upsertOne st now o1).1 (itemSite o2) (itemLink o2) = true := by
      rw [← hsite, ← hlink]
      exact upsertOne_hasKey_self st now o1 hv1
    rw [hstep, upsertOne_update _ now o2 hv2 hk2] at hr
    obtain ⟨r0, hr0mem, rfl⟩ := List.mem_map.mp hr
    rw [applyUpdate_site] at hrs
    rw [applyUpdate_link] at hrl
    unfold applyUpdate
    rw [if_pos ⟨hrs, hrl⟩]
    exact ⟨rfl, rfl, rfl⟩

/-- C9 witness: upserting two same-key records leaves one row carrying the
second record's fields. -/
theorem collector_concat_and_duplicate_key_last_wins_witness :
    c9wRow.title = (asItem c9Obj2).title ∧
    c9wRow.payout = (asItem c9Obj2).payout ∧
    c9wRow.description = (asItem c9Obj2).description :=
  collector_concat_and_duplicate_key_last_wins.2 emptyStore 0 c9Obj1 c9Obj2
    (by decide) (by decide) (by decide) (by decide) c9wRow
    (by decide) (by decide) (by decide)
